import Mathlib

/-!
Verification development for the fantasy-football ingestion pipeline
(`ingestion.py`, `database.py`).

The relational state is embedded shallowly: each table is a `List` of row
structures, SQL statements become pure functions on those lists, and Python
exception flow becomes `Except`.  SQLite `REAL` scores are modelled as `Rat`
(the claims only compare scores, never do float arithmetic), `NULL`able
columns as `Option`, and text columns as `String` (SQLite BINARY collation
and Lean's lexicographic string order agree on the orderings used here).
-/

namespace FantasyAnalysis

/-- A row of the `players` table (see the schema in `database.py`).
`id` is the integer primary key; rank columns are nullable. -/
structure PlayerRow where
  id : Nat
  espn_player_id : Int
  name : String
  position : String
  fantasy_score : Option Rat
  position_rank : Option Nat
  overall_rank : Option Nat
  projected_position_rank : Option Int
  projected_overall_rank : Option Int
  season : Int
  deriving Repr, DecidableEq

/-- The filter `fantasy_score IS NOT NULL AND fantasy_score > 0`, the eligibility
filter of both ranking subqueries in `_reconcile_player_ranks`. -/
def posScore (r : PlayerRow) : Bool :=
  match r.fantasy_score with
  | none => false
  | some s => decide (0 < s)

/-- Score used by `ORDER BY fantasy_score DESC` (rows reaching the sort all
have a non-null score, so the default is never compared). -/
def scoreOf (r : PlayerRow) : Rat := r.fantasy_score.getD 0

/-- The order `ORDER BY fantasy_score DESC, name ASC` as a total boolean preorder:
`rankLE p q` means `p` may come no later than `q`. -/
def rankLE (p q : PlayerRow) : Bool :=
  decide (scoreOf q < scoreOf p) ||
    (decide (scoreOf p = scoreOf q) && decide (p.name ≤ q.name))

/-- Insert into a sorted list, keeping earlier elements first on ties
(models the deterministic scan order SQLite uses for tied `ORDER BY` keys). -/
def insertRanked {α : Type} (le : α → α → Bool) (a : α) : List α → List α
  | [] => [a]
  | b :: l => if le a b then a :: b :: l else b :: insertRanked le a l

/-- Stable insertion sort used to model the window-function `ORDER BY`. -/
def sortRanked {α : Type} (le : α → α → Bool) : List α → List α
  | [] => []
  | a :: l => insertRanked le a (sortRanked le l)

/-- Rows of the season with strictly positive score — the set both
`ROW_NUMBER()` subqueries of `_reconcile_player_ranks` range over. -/
def eligible (season : Int) (db : List PlayerRow) : List PlayerRow :=
  db.filter (fun r => decide (r.season = season) && posScore r)

/-- The correlation `WHERE players.id = ranked_players.id` followed by reading the row
number: one plus the index of the first row with the given id. -/
def rankOfById (r : PlayerRow) (l : List PlayerRow) : Nat :=
  l.findIdx (fun q => q.id = r.id) + 1

/-- The window `ROW_NUMBER() OVER (PARTITION BY position ORDER BY fantasy_score DESC,
name ASC)` looked up for row `r`. -/
def positionRankOf (season : Int) (db : List PlayerRow) (r : PlayerRow) : Nat :=
  rankOfById r
    (sortRanked rankLE ((eligible season db).filter (fun q => q.position = r.position)))

/-- The window `ROW_NUMBER() OVER (ORDER BY fantasy_score DESC, name ASC)` looked up
for row `r`. -/
def overallRankOf (season : Int) (db : List PlayerRow) (r : PlayerRow) : Nat :=
  rankOfById r (sortRanked rankLE (eligible season db))

/-- Effect of the two `UPDATE` statements of `_reconcile_player_ranks` on a
single row: rows of the season with positive score get both ranks written,
every other row is untouched (the `WHERE` clause excludes it). -/
def reconcileRow (season : Int) (db : List PlayerRow) (r : PlayerRow) : PlayerRow :=
  if r.season = season ∧ posScore r = true then
    { r with position_rank := some (positionRankOf season db r),
             overall_rank := some (overallRankOf season db r) }
  else r

/-- Function `_reconcile_player_ranks` (ingestion.py): both rank columns recomputed
for the season's positive-score rows.  The second `UPDATE` reads only
columns the first one does not write, so running them in sequence equals
this single pass over the table. -/
def reconcile_player_ranks (season : Int) (db : List PlayerRow) : List PlayerRow :=
  db.map (reconcileRow season db)

/-! ### Exception types (`IngestionError`, `DatabaseError`, driver errors) -/

/-- Exception `IngestionError` (ingestion.py): typed structural pipeline failure. -/
structure IngestionError where
  msg : String
  deriving Repr, DecidableEq

/-- The database driver's native exception type (`sqlite3.Error`). -/
structure SqliteError where
  msg : String
  deriving Repr, DecidableEq

/-- Exception `DatabaseError` (database.py): the store's single wrapping error type. -/
structure DatabaseError where
  msg : String
  deriving Repr, DecidableEq

/-- A raised Python exception, as seen by a caller of the store: either the
driver's native type or the store's wrapper. -/
inductive PyExc where
  | sqlite (e : SqliteError)
  | storage (e : DatabaseError)
  deriving Repr, DecidableEq

/-! ### Relational store (`database.py`) -/

/-- Function `get_connection`: the body's outcome is the underlying statement's
outcome; a `sqlite3.Error` escaping the body is rolled back and re-raised
as `DatabaseError ("Database operation failed: " ...)`. -/
def get_connection_run {α : Type} (body : Except SqliteError α) : Except PyExc α :=
  match body with
  | .ok a => .ok a
  | .error e => .error (.storage { msg := "Database operation failed: " ++ e.msg })

/-- The `except sqlite3.Error` handler wrapping each store operation's body:
a native error is wrapped into `DatabaseError`, anything else propagates. -/
def wrap_sqlite {α : Type} (ctx : String) (r : Except PyExc α) : Except PyExc α :=
  match r with
  | .ok a => .ok a
  | .error (.sqlite e) => .error (.storage { msg := ctx ++ e.msg })
  | .error (.storage d) => .error (.storage d)

/-- Function `FantasyDatabase.execute_query`: run the statement inside a connection
scope, wrapping native errors with "Query execution failed: ". -/
def execute_query_run {α : Type} (stmt : Except SqliteError α) : Except PyExc α :=
  wrap_sqlite "Query execution failed: " (get_connection_run stmt)

/-- Function `FantasyDatabase.execute_insert` (single-row write, result: lastrowid). -/
def execute_insert_run {α : Type} (stmt : Except SqliteError α) : Except PyExc α :=
  wrap_sqlite "Insert operation failed: " (get_connection_run stmt)

/-- Function `FantasyDatabase.execute_many` (batched write). -/
def execute_many_run {α : Type} (stmt : Except SqliteError α) : Except PyExc α :=
  wrap_sqlite "Batch operation failed: " (get_connection_run stmt)

/-- Holds (`true`) iff the outcome is not a raised driver-native exception. -/
def notNativeExc {α : Type} (r : Except PyExc α) : Bool :=
  match r with
  | .error (.sqlite _) => false
  | _ => true

/-- The table list hard-coded in `get_database_stats` (`rosters` absent). -/
def db_tables : List String :=
  ["nfl_teams", "games", "fantasy_teams", "players", "draft_picks"]

/-- Function `FantasyDatabase.get_table_count`: a `SELECT COUNT(*)` through
`execute_query`; first row's count, `0` on an empty result set.  The
underlying per-table statement outcome is the oracle `counts`. -/
def get_table_count_run (counts : String → Except SqliteError (List Nat))
    (table : String) : Except PyExc Nat :=
  match execute_query_run (counts table) with
  | .ok rows => .ok (rows.headD 0)
  | .error e => .error e

/-- One iteration of the `get_database_stats` loop: `DatabaseError` from
`get_table_count` is caught and recorded as `0`; any other exception
(in particular a driver-native one) would propagate. -/
def statsStep (counts : String → Except SqliteError (List Nat))
    (acc : Except PyExc (List (String × Nat))) (t : String) :
    Except PyExc (List (String × Nat)) :=
  match acc with
  | .error e => .error e
  | .ok l =>
    match get_table_count_run counts t with
    | .ok n => .ok (l ++ [(t, n)])
    | .error (.storage _) => .ok (l ++ [(t, 0)])
    | .error (.sqlite s) => .error (.sqlite s)

/-- Function `FantasyDatabase.get_database_stats`. -/
def get_database_stats (counts : String → Except SqliteError (List Nat)) :
    Except PyExc (List (String × Nat)) :=
  db_tables.foldl (statsStep counts) (.ok [])

/-- The per-table entry `get_database_stats` records. -/
def statValue (counts : String → Except SqliteError (List Nat)) (t : String) :
    String × Nat :=
  (t, match counts t with
      | .ok rows => rows.headD 0
      | .error _ => 0)

/-! ### Teams & games (`_load_games`, claim about (season, espn_game_id)) -/

/-- One game object of a team's `proGamesByScoringPeriod` entry. -/
structure GameData where
  id : Option Int
  homeProTeamId : Option Int
  awayProTeamId : Option Int
  date : Option Int
  scoringPeriodId : Option Int
  startTimeTBD : Bool
  statsOfficial : Bool
  validForLocking : Bool
  deriving Repr, DecidableEq

/-- One entry of the teams payload's `proTeams` array; the values of the
`proGamesByScoringPeriod` dict, in iteration order. -/
structure ProTeamData where
  id : Option Int
  gamesByPeriod : List (List GameData)
  deriving Repr, DecidableEq

/-- The games-table tuple `_load_games` builds for one game. -/
structure GameRow where
  season : Int
  espn_game_id : Option Int
  home_team_id : Option Int
  away_team_id : Option Int
  game_date : Option Int
  scoring_period_id : Option Int
  start_time_tbd : Bool
  stats_official : Bool
  valid_for_locking : Bool
  deriving Repr, DecidableEq

def mkGameRow (season : Int) (g : GameData) : GameRow :=
  { season := season, espn_game_id := g.id, home_team_id := g.homeProTeamId,
    away_team_id := g.awayProTeamId, game_date := g.date,
    scoring_period_id := g.scoringPeriodId, start_time_tbd := g.startTimeTBD,
    stats_official := g.statsOfficial, valid_for_locking := g.validForLocking }

/-- The dedup key of `_load_games`: `(game[0], game[1])` = (season, id). -/
def gameKey (g : GameRow) : Int × Option Int :=
  (g.season, g.espn_game_id)

/-- The flattening loop of `_load_games` building `games_data`. -/
def gamesFlat (pro_teams : List ProTeamData) (season : Int) : List GameRow :=
  pro_teams.flatMap (fun t => t.gamesByPeriod.flatMap (fun gs => gs.map (mkGameRow season)))

/-- One step of the Python dict comprehension `{(g[0], g[1]): g for g in
games_data}`: keys keep first-insertion order, a repeated key keeps the
last value. -/
def dictStep (acc : List GameRow) (g : GameRow) : List GameRow :=
  if acc.any (fun h => gameKey h = gameKey g) then
    acc.map (fun h => if gameKey h = gameKey g then g else h)
  else
    acc ++ [g]

/-- Function `_load_games`: flatten, dedup by (season, external game id), and hand
the resulting `unique_games` to the bulk insert. -/
def load_games (pro_teams : List ProTeamData) (season : Int) : List GameRow :=
  (gamesFlat pro_teams season).foldl dictStep []

/-! ### Players (`_determine_position`, `_load_players`) -/

/-- The fixed `position_map` dict of `_determine_position`. -/
def position_map (slot : Int) : Option String :=
  if slot = 0 then some "QB"
  else if slot = 2 then some "RB"
  else if slot = 4 then some "WR"
  else if slot = 6 then some "TE"
  else if slot = 17 then some "K"
  else if slot = 16 then some "DST"
  else none

/-- Function `_determine_position`: first slot of the eligibility list recognized by
`position_map`; `"UNKNOWN"` when none is. -/
def determine_position (eligibility : List Int) : String :=
  match eligibility with
  | [] => "UNKNOWN"
  | slot :: rest =>
    match position_map slot with
    | some p => p
    | none => determine_position rest

/-- One record of the external players payload. -/
structure ExternalPlayer where
  id : Option Int
  fullName : Option String
  eligibleSlots : List Int
  proTeamId : Option Int
  injuryStatus : Option String
  deriving Repr, DecidableEq

/-- The players-table tuple `_load_players` builds. -/
structure StoredPlayer where
  espn_player_id : Int
  name : String
  position : String
  nfl_team_id : Option Int
  eligibility_status : String
  is_active : Bool
  season : Int
  deriving Repr, DecidableEq

/-- Python `player.get("fullName", "") or f"Player {player_id}"` (an empty or
absent name falls back to the synthesized one). -/
def playerName (pid : Int) (fullName : Option String) : String :=
  match fullName with
  | some n => if n = "" then "Player " ++ toString pid else n
  | none => "Player " ++ toString pid

/-- The per-record body of the `_load_players` loop: `none` when the record
is skipped (`continue`), otherwise the row appended to `players_list`. -/
def mkStoredPlayer (season : Int) (p : ExternalPlayer) : Option StoredPlayer :=
  match p.id with
  | none => none
  | some pid =>
    if pid = 0 then none
    else
      let position := determine_position p.eligibleSlots
      if position = "UNKNOWN" then none
      else
        let status := p.injuryStatus.getD "ACTIVE"
        some { espn_player_id := pid, name := playerName pid p.fullName,
               position := position, nfl_team_id := p.proTeamId,
               eligibility_status := status,
               is_active := decide (status = "ACTIVE"), season := season }

/-- Function `_load_players`: the rows handed to the bulk insert. -/
def load_players (season : Int) (players_data : List ExternalPlayer) : List StoredPlayer :=
  players_data.filterMap (mkStoredPlayer season)

/-! ### Draft picks (`_load_draft_picks`) -/

/-- One pick object of the draft payload. -/
structure DraftPickData where
  playerId : Option Int
  teamId : Option Int
  id : Option Int
  roundId : Option Int
  roundPickNumber : Option Int
  overallPickNumber : Option Int
  lineupSlotId : Option Int
  keeper : Bool
  autoDraftTypeId : Int
  deriving Repr, DecidableEq

/-- The draft_picks-table tuple `_load_draft_picks` builds. -/
structure DraftPickRow where
  season : Int
  espn_pick_id : Option Int
  player_id : Nat
  fantasy_team_id : Nat
  round_id : Option Int
  round_pick_number : Option Int
  overall_pick_number : Option Int
  lineup_slot_id : Option Int
  is_keeper : Bool
  auto_draft_type_id : Int
  deriving Repr, DecidableEq

/-- Python `dict.get` on an id that may itself be absent from the pick. -/
def lookupId (m : List (Int × Nat)) (k : Option Int) : Option Nat :=
  match k with
  | none => none
  | some key => m.lookup key

/-- Resolution outcome of one pick against the two lookup maps. -/
def pickResolves (player_id_map fantasy_team_id_map : List (Int × Nat))
    (pick : DraftPickData) : Bool :=
  (lookupId player_id_map pick.playerId).isSome &&
    (lookupId fantasy_team_id_map pick.teamId).isSome

/-- The row built for a pick whose ids resolved. -/
def mkDraftPickRow (season : Int) (db_player_id db_fantasy_team_id : Nat)
    (pick : DraftPickData) : DraftPickRow :=
  { season := season, espn_pick_id := pick.id, player_id := db_player_id,
    fantasy_team_id := db_fantasy_team_id, round_id := pick.roundId,
    round_pick_number := pick.roundPickNumber,
    overall_pick_number := pick.overallPickNumber,
    lineup_slot_id := pick.lineupSlotId, is_keeper := pick.keeper,
    auto_draft_type_id := pick.autoDraftTypeId }

/-- One iteration of the `_load_draft_picks` loop: an unresolvable id adds
a warning-level log line and skips the pick (`continue`); otherwise the
translated row is appended to `picks_data`. -/
def draftPickStep (season : Int) (player_id_map fantasy_team_id_map : List (Int × Nat))
    (acc : List DraftPickRow × List String) (pick : DraftPickData) :
    List DraftPickRow × List String :=
  match lookupId player_id_map pick.playerId with
  | none =>
    (acc.1, acc.2 ++ ["Player ID " ++ toString pick.playerId ++
      " not found in players table, skipping pick " ++ toString pick.id])
  | some db_player_id =>
    match lookupId fantasy_team_id_map pick.teamId with
    | none =>
      (acc.1, acc.2 ++ ["Fantasy team ID " ++ toString pick.teamId ++
        " not found in fantasy_teams table for season " ++ toString season ++
        ", skipping pick " ++ toString pick.id])
    | some db_fantasy_team_id =>
      (acc.1 ++ [mkDraftPickRow season db_player_id db_fantasy_team_id pick], acc.2)

/-- The loop body's net contribution for one pick: `none` when either id
fails to resolve (the pick is skipped), the translated row otherwise. -/
def resolvePick (season : Int) (player_id_map fantasy_team_id_map : List (Int × Nat))
    (p : DraftPickData) : Option DraftPickRow :=
  match lookupId player_id_map p.playerId with
  | none => none
  | some a =>
    match lookupId fantasy_team_id_map p.teamId with
    | none => none
    | some b => some (mkDraftPickRow season a b p)

/-- Function `_load_draft_picks`: the rows handed to the bulk `INSERT OR IGNORE`
(i.e. the DraftPick rows this load creates) together with the warnings
logged for skipped picks. -/
def load_draft_picks (picks : List DraftPickData) (season : Int)
    (player_id_map fantasy_team_id_map : List (Int × Nat)) :
    List DraftPickRow × List String :=
  picks.foldl (draftPickStep season player_id_map fantasy_team_id_map) ([], [])

/-! ### Rosters (`_load_player_stats`, `_load_projected_ranks`,
`load_rosters`, `_reconcile_player_ranks` error flow) -/

/-- One entry of a player's `stats` array. -/
structure StatEntry where
  id : String
  appliedTotal : Option Rat
  deriving Repr, DecidableEq

/-- A roster entry as far as the players table is concerned. -/
structure RosterEntryData where
  playerId : Option Int
  fullName : String
  eligibleSlots : List Int
  stats : List StatEntry
  deriving Repr, DecidableEq

/-- The season's stat bucket id, `"00" + str(season)`. -/
def statBucketId (season : Int) : String := "00" ++ toString season

/-- The `for stat in stats` loop of `_load_player_stats`: last matching
bucket wins, starting from `0.0`; a matching stat without `appliedTotal`
contributes the default `0.0`. -/
def seasonScore (season : Int) (stats : List StatEntry) : Rat :=
  stats.foldl
    (fun acc st => if st.id = statBucketId season then st.appliedTotal.getD 0 else acc) 0

/-- Function `_load_player_stats`: overwrite `fantasy_score` for the entry's player
row(s) of the season; a no-op on a falsy player id or an empty stats list. -/
def load_player_stats (e : RosterEntryData) (season : Int) (db : List PlayerRow) :
    List PlayerRow :=
  match e.playerId with
  | none => db
  | some pid =>
    if pid = 0 then db
    else if e.stats.isEmpty then db
    else
      db.map (fun r =>
        if r.espn_player_id = pid ∧ r.season = season then
          { r with fantasy_score := some (seasonScore season e.stats) }
        else r)

/-- One entry of a projection document's `rankings` array; the two rank
fields model `item.get(f"{pos}_rank")` and `item.get("overall_rank")`. -/
structure ProjectionItem where
  name : String
  positionRank : Option Int
  overallRank : Option Int
  deriving Repr, DecidableEq

/-- A side-channel projection-ranking document. -/
structure ProjectionDoc where
  rankings : List ProjectionItem
  deriving Repr, DecidableEq

/-- Python `position.lower()`: per-character ASCII lowering (written over the
character list so that it evaluates inside the kernel). -/
def strLower (s : String) : String := ⟨s.data.map Char.toLower⟩

/-- The path `f"data_source/{season}_{position_lower}.json"`. -/
def projectionDocPath (season : Int) (position : String) : String :=
  "data_source/" ++ toString season ++ "_" ++ strLower position ++ ".json"

/-- List `valid_positions` in `_load_projected_ranks`. -/
def valid_positions : List String := ["QB", "RB", "WR", "TE"]

/-- Function `_load_projected_ranks`: resolve the entry's position, read the
per-position document from the filesystem `fs` (an association list of
paths to parsed documents), join on exact display name, and `UPDATE` the
player's projected rank columns.  The ranks default to `0` before the
name-scan loop, so a document without a matching name writes `0`s. -/
def load_projected_ranks (fs : List (String × ProjectionDoc)) (e : RosterEntryData)
    (season : Int) (db : List PlayerRow) : List PlayerRow :=
  match e.playerId with
  | none => db
  | some pid =>
    if pid = 0 then db
    else
      let position := determine_position e.eligibleSlots
      if valid_positions.contains position then
        match fs.lookup (projectionDocPath season position) with
        | none => db
        | some doc =>
          let found := doc.rankings.find? (fun it => it.name = e.fullName)
          let position_rank : Option Int :=
            match found with
            | some it => it.positionRank
            | none => some 0
          let overall_rank : Option Int :=
            match found with
            | some it => it.overallRank
            | none => some 0
          db.map (fun r =>
            if r.season = season ∧ r.espn_player_id = pid then
              { r with projected_position_rank := position_rank,
                       projected_overall_rank := overall_rank }
            else r)
      else db

/-- The effectful wrapper of `_reconcile_player_ranks`: `dbFault` models an
unexpected exception out of the ranking `UPDATE`s (the only fallible
operations in the body); the handler logs and re-raises it as a typed
`IngestionError`. -/
def reconcile_player_ranks_run (dbFault : Bool) (season : Int) (db : List PlayerRow) :
    Except IngestionError (List PlayerRow) :=
  if dbFault then
    .error { msg := "Failed to reconcile player ranks" }
  else
    .ok (reconcile_player_ranks season db)

/-- The per-entry processing of `load_rosters` (player-stats overwrite and,
for the 2024 season, the projected-ranks pass; the rosters-table insert
touches a different table and swallows its own errors). -/
def processRosterEntry (fs : List (String × ProjectionDoc)) (season : Int)
    (db : List PlayerRow) (e : RosterEntryData) : List PlayerRow :=
  let db1 := load_player_stats e season db
  if season = 2024 then load_projected_ranks fs e season db1 else db1

/-- The nested `for team / for roster_entry` loops of `load_rosters`. -/
def processRosterTeams (fs : List (String × ProjectionDoc)) (season : Int)
    (teams : List (List RosterEntryData)) (db : List PlayerRow) : List PlayerRow :=
  teams.foldl (fun acc entries => entries.foldl (processRosterEntry fs season) acc) db

/-- Function `load_rosters`: process every team's entries, then reconcile ranks —
all inside a blanket `try/except Exception` that logs and returns, so no
exception (the reconcile step's `IngestionError` included) ever escapes;
on a reconcile failure the uncommitted rank updates are rolled back and
the state from the per-entry processing stands. -/
def load_rosters_run (fs : List (String × ProjectionDoc)) (dbFault : Bool)
    (season : Int) (teams : List (List RosterEntryData)) (db : List PlayerRow) :
    Except IngestionError (List PlayerRow) :=
  let db1 := processRosterTeams fs season teams db
  match reconcile_player_ranks_run dbFault season db1 with
  | .ok db2 => .ok db2
  | .error _ => .ok db1

/-! ### Concrete sample data -/

/-- A small players table with distinct primary keys: two QBs (one score
tie broken by name elsewhere) and one RB, all season 2024. -/
def c1db : List PlayerRow :=
  [⟨1, 101, "Alice", "QB", some 300, none, none, none, none, 2024⟩,
   ⟨2, 102, "Bob", "QB", some 250, none, none, none, none, 2024⟩,
   ⟨3, 103, "Cara", "RB", some 250, none, none, none, none, 2024⟩]

/-- A zero-score row carrying stale (non-null) ranks from an earlier run. -/
def staleRow : PlayerRow :=
  ⟨1, 101, "Stale", "QB", some 0, some 1, some 1, none, none, 2023⟩

/-- Lookup maps and a payload with one resolvable and one unresolvable pick. -/
def c5pmap : List (Int × Nat) := [(10, 1)]

def c5tmap : List (Int × Nat) := [(5, 2)]

def c5picks : List DraftPickData :=
  [⟨some 99, some 5, some 2, some 1, some 2, some 2, some 20, false, 0⟩,
   ⟨some 10, some 5, some 1, some 1, some 1, some 1, some 20, false, 0⟩]

/-- A QB roster entry whose display name is absent from the document. -/
def c6entry : RosterEntryData := ⟨some 5, "Alice", [0], []⟩

/-- A projection document containing no entry named "Alice". -/
def c6doc : ProjectionDoc := ⟨[⟨"Other", some 3, some 7⟩]⟩

/-- A filesystem holding the 2024 QB projection document. -/
def c6fs : List (String × ProjectionDoc) := [("data_source/2024_qb.json", c6doc)]

/-- A players table with the row the C6 entry resolves to. -/
def c6db : List PlayerRow :=
  [⟨1, 5, "Alice", "QB", some 100, none, none, none, none, 2024⟩]

/-- One shared game appearing under both participating teams' payloads. -/
def c7game : GameData := ⟨some 101, some 1, some 2, some 1000, some 1, false, false, true⟩

def c7teams : List ProTeamData := [⟨some 1, [[c7game]]⟩, ⟨some 2, [[c7game]]⟩]

/-- A per-table statement oracle where only the players count query fails. -/
def c10counts : String → Except SqliteError (List Nat) :=
  fun t => if t = "players" then .error ⟨"no such table: players"⟩ else .ok [3]

/-! ## Theorems -/

/-! ### Sorting infrastructure -/

theorem insertRanked_perm {α : Type} (le : α → α → Bool) (a : α) (l : List α) :
    (insertRanked le a l).Perm (a :: l) := by
  induction l with
  | nil => exact List.Perm.refl _
  | cons b l ih =>
    by_cases h : le a b = true
    · rw [insertRanked, if_pos h]
    · rw [insertRanked, if_neg h]
      exact (ih.cons b).trans (List.Perm.swap a b l)

theorem sortRanked_perm {α : Type} (le : α → α → Bool) (l : List α) :
    (sortRanked le l).Perm l := by
  induction l with
  | nil => exact List.Perm.refl _
  | cons a l ih =>
    exact (insertRanked_perm le a (sortRanked le l)).trans (ih.cons a)

theorem insertRanked_pairwise {α : Type} (le : α → α → Bool)
    (htrans : ∀ x y z, le x y = true → le y z = true → le x z = true)
    (htot : ∀ x y, le x y = true ∨ le y x = true) (a : α) (l : List α)
    (h : l.Pairwise (fun x y => le x y = true)) :
    (insertRanked le a l).Pairwise (fun x y => le x y = true) := by
  induction l with
  | nil => simp [insertRanked]
  | cons b l ih =>
    rw [List.pairwise_cons] at h
    by_cases hab : le a b = true
    · rw [insertRanked, if_pos hab]
      refine List.Pairwise.cons ?_ (List.Pairwise.cons h.1 h.2)
      intro y hy
      rcases List.mem_cons.mp hy with rfl | hy'
      · exact hab
      · exact htrans a b y hab (h.1 y hy')
    · rw [insertRanked, if_neg hab]
      refine List.Pairwise.cons ?_ (ih h.2)
      intro y hy
      have hy' := (insertRanked_perm le a l).mem_iff.mp hy
      rcases List.mem_cons.mp hy' with rfl | hy''
      · rcases htot b y with h' | h'
        · exact h'
        · exact absurd h' hab
      · exact h.1 y hy''

theorem sortRanked_pairwise {α : Type} (le : α → α → Bool)
    (htrans : ∀ x y z, le x y = true → le y z = true → le x z = true)
    (htot : ∀ x y, le x y = true ∨ le y x = true) (l : List α) :
    (sortRanked le l).Pairwise (fun x y => le x y = true) := by
  induction l with
  | nil => simp [sortRanked]
  | cons a l ih => exact insertRanked_pairwise le htrans htot a _ ih

theorem findIdx_map_eq {α β : Type} (p : β → Bool) (f : α → β) (l : List α) :
    (l.map f).findIdx p = l.findIdx (fun a => p (f a)) := by
  induction l with
  | nil => rfl
  | cons a l ih =>
    rw [List.map_cons, List.findIdx_cons, List.findIdx_cons, ih]

theorem insertRanked_map {α β : Type} (le : α → α → Bool) (le' : β → β → Bool)
    (f : α → β) (hcomp : ∀ x y, le' (f x) (f y) = le x y) (a : α) (l : List α) :
    insertRanked le' (f a) (l.map f) = (insertRanked le a l).map f := by
  induction l with
  | nil => rfl
  | cons b l ih =>
    by_cases h : le a b = true
    · rw [List.map_cons, insertRanked, hcomp, if_pos h, insertRanked, if_pos h,
        List.map_cons, List.map_cons]
    · rw [List.map_cons, insertRanked, hcomp, if_neg h, insertRanked, if_neg h,
        List.map_cons, ih]

theorem sortRanked_map {α β : Type} (le : α → α → Bool) (le' : β → β → Bool)
    (f : α → β) (hcomp : ∀ x y, le' (f x) (f y) = le x y) (l : List α) :
    sortRanked le' (l.map f) = (sortRanked le l).map f := by
  induction l with
  | nil => rfl
  | cons a l ih =>
    rw [List.map_cons, sortRanked, sortRanked, ih,
      insertRanked_map le le' f hcomp]

/-! ### Properties of the ranking order -/

theorem rankLE_refl (p : PlayerRow) : rankLE p p = true := by
  simp [rankLE]

theorem rankLE_total (p q : PlayerRow) : rankLE p q = true ∨ rankLE q p = true := by
  simp only [rankLE, Bool.or_eq_true, Bool.and_eq_true, decide_eq_true_eq]
  rcases lt_trichotomy (scoreOf p) (scoreOf q) with h | h | h
  · exact Or.inr (Or.inl h)
  · rcases le_total p.name q.name with hn | hn
    · exact Or.inl (Or.inr ⟨h, hn⟩)
    · exact Or.inr (Or.inr ⟨h.symm, hn⟩)
  · exact Or.inl (Or.inl h)

theorem rankLE_trans (p q r : PlayerRow)
    (h1 : rankLE p q = true) (h2 : rankLE q r = true) : rankLE p r = true := by
  simp only [rankLE, Bool.or_eq_true, Bool.and_eq_true, decide_eq_true_eq] at *
  rcases h1 with h1 | ⟨h1e, h1n⟩
  · rcases h2 with h2 | ⟨h2e, h2n⟩
    · exact Or.inl (h2.trans h1)
    · exact Or.inl (h2e ▸ h1)
  · rcases h2 with h2 | ⟨h2e, h2n⟩
    · exact Or.inl (by rw [h1e]; exact h2)
    · exact Or.inr ⟨h1e.trans h2e, h1n.trans h2n⟩

/-! ### Dense rank assignment -/

theorem map_rankOfById_sorted (l : List PlayerRow)
    (h : (l.map PlayerRow.id).Nodup) :
    l.map (fun r => rankOfById r l) = List.range' 1 l.length := by
  induction l with
  | nil => rfl
  | cons x xs ih =>
    rw [List.map_cons] at h
    obtain ⟨hnx, hxs⟩ := List.nodup_cons.mp h
    have hx : rankOfById x (x :: xs) = 1 := by
      rw [rankOfById, List.findIdx_cons]
      simp
    have hmem : ∀ r ∈ xs, rankOfById r (x :: xs) = rankOfById r xs + 1 := by
      intro r hr
      have hne : (decide (x.id = r.id)) = false := by
        simp only [decide_eq_false_iff_not]
        intro heq
        exact hnx (heq ▸ List.mem_map_of_mem PlayerRow.id hr)
      rw [rankOfById, rankOfById, List.findIdx_cons, hne]
      rfl
    rw [List.map_cons, hx]
    have : xs.map (fun r => rankOfById r (x :: xs)) =
        (xs.map (fun r => rankOfById r xs)).map (fun n => n + 1) := by
      rw [List.map_map]
      exact List.map_congr_left (fun r hr => hmem r hr)
    rw [this, ih hxs]
    have h2 : (List.range' 1 xs.length).map (fun n => n + 1) = List.range' 2 xs.length := by
      have : (fun n => n + 1) = (fun n => 1 + n) := by
        funext n; exact Nat.add_comm n 1
      rw [this]
      exact List.map_add_range' 1 1 xs.length 1
    rw [h2, List.length_cons, List.range'_succ]

theorem rank_perm (l : List PlayerRow) (h : (l.map PlayerRow.id).Nodup) :
    (l.map (fun r => rankOfById r (sortRanked rankLE l))).Perm
      (List.range' 1 l.length) := by
  have hperm := sortRanked_perm rankLE l
  have hnd : ((sortRanked rankLE l).map PlayerRow.id).Nodup :=
    ((hperm.map PlayerRow.id).symm).nodup h
  have h1 : (l.map (fun r => rankOfById r (sortRanked rankLE l))).Perm
      ((sortRanked rankLE l).map (fun r => rankOfById r (sortRanked rankLE l))) :=
    hperm.symm.map _
  rw [map_rankOfById_sorted _ hnd, hperm.length_eq] at h1
  exact h1

theorem eq_of_id_eq (l : List PlayerRow) (h : (l.map PlayerRow.id).Nodup)
    {a b : PlayerRow} (ha : a ∈ l) (hb : b ∈ l) (hid : a.id = b.id) : a = b :=
  List.inj_on_of_nodup_map h ha hb hid

theorem findIdx_id_get (S : List PlayerRow) (hnd : (S.map PlayerRow.id).Nodup)
    (p : PlayerRow) (hp : p ∈ S) :
    ∃ w : S.findIdx (fun q => q.id = p.id) < S.length,
      S.get ⟨S.findIdx (fun q => q.id = p.id), w⟩ = p := by
  have hw : S.findIdx (fun q => q.id = p.id) < S.length :=
    List.findIdx_lt_length.mpr ⟨p, hp, by simp⟩
  refine ⟨hw, ?_⟩
  have hpred := @List.findIdx_get _ (fun q => q.id = p.id) S hw
  have hid : (S.get ⟨S.findIdx (fun q => q.id = p.id), hw⟩).id = p.id := by
    simpa using hpred
  exact eq_of_id_eq S hnd (S.get_mem _ _) hp hid

theorem rank_strict (l : List PlayerRow) (h : (l.map PlayerRow.id).Nodup)
    (p q : PlayerRow) (hp : p ∈ l) (hq : q ∈ l)
    (hlt : scoreOf q < scoreOf p ∨ (scoreOf p = scoreOf q ∧ p.name < q.name)) :
    rankOfById p (sortRanked rankLE l) < rankOfById q (sortRanked rankLE l) := by
  have hperm := sortRanked_perm rankLE l
  have hnd : ((sortRanked rankLE l).map PlayerRow.id).Nodup :=
    ((hperm.map PlayerRow.id).symm).nodup h
  have hpS : p ∈ sortRanked rankLE l := hperm.mem_iff.mpr hp
  have hqS : q ∈ sortRanked rankLE l := hperm.mem_iff.mpr hq
  obtain ⟨wp, hgp⟩ := findIdx_id_get _ hnd p hpS
  obtain ⟨wq, hgq⟩ := findIdx_id_get _ hnd q hqS
  have hsorted := sortRanked_pairwise rankLE rankLE_trans rankLE_total l
  have hnle : rankLE q p = false := by
    simp only [rankLE, Bool.or_eq_false_iff, Bool.and_eq_false_iff,
      decide_eq_false_iff_not, not_lt]
    rcases hlt with hlt | ⟨heq, hn⟩
    · exact ⟨le_of_lt hlt, Or.inl (ne_of_lt hlt)⟩
    · exact ⟨le_of_eq heq.symm, Or.inr (not_le.mpr hn)⟩
  have hij : (sortRanked rankLE l).findIdx (fun x => x.id = p.id) <
      (sortRanked rankLE l).findIdx (fun x => x.id = q.id) := by
    rcases Nat.lt_trichotomy ((sortRanked rankLE l).findIdx (fun x => x.id = p.id))
        ((sortRanked rankLE l).findIdx (fun x => x.id = q.id)) with hij | hij | hij
    · exact hij
    · exfalso
      have : p = q := by
        rw [← hgp, ← hgq]
        congr 1
        exact Fin.ext hij
      subst this
      rcases hlt with hlt | ⟨_, hn⟩
      · exact lt_irrefl _ hlt
      · exact lt_irrefl _ hn
    · exfalso
      have := (List.pairwise_iff_get.mp hsorted) ⟨_, wq⟩ ⟨_, wp⟩ hij
      rw [hgp, hgq] at this
      rw [this] at hnle
      exact Bool.noConfusion hnle
  rw [rankOfById, rankOfById]
  exact Nat.succ_lt_succ hij

/-! ### Reconciliation preserves every non-rank column -/

theorem reconcileRow_id (s : Int) (db : List PlayerRow) (r : PlayerRow) :
    (reconcileRow s db r).id = r.id := by
  unfold reconcileRow; split <;> rfl

theorem reconcileRow_season (s : Int) (db : List PlayerRow) (r : PlayerRow) :
    (reconcileRow s db r).season = r.season := by
  unfold reconcileRow; split <;> rfl

theorem reconcileRow_name (s : Int) (db : List PlayerRow) (r : PlayerRow) :
    (reconcileRow s db r).name = r.name := by
  unfold reconcileRow; split <;> rfl

theorem reconcileRow_position (s : Int) (db : List PlayerRow) (r : PlayerRow) :
    (reconcileRow s db r).position = r.position := by
  unfold reconcileRow; split <;> rfl

theorem reconcileRow_fantasy_score (s : Int) (db : List PlayerRow) (r : PlayerRow) :
    (reconcileRow s db r).fantasy_score = r.fantasy_score := by
  unfold reconcileRow; split <;> rfl

theorem reconcileRow_posScore (s : Int) (db : List PlayerRow) (r : PlayerRow) :
    posScore (reconcileRow s db r) = posScore r := by
  unfold reconcileRow; split <;> rfl

theorem reconcileRow_scoreOf (s : Int) (db : List PlayerRow) (r : PlayerRow) :
    scoreOf (reconcileRow s db r) = scoreOf r := by
  simp only [scoreOf, reconcileRow_fantasy_score]

theorem reconcileRow_rankLE (s : Int) (db : List PlayerRow) (a b : PlayerRow) :
    rankLE (reconcileRow s db a) (reconcileRow s db b) = rankLE a b := by
  simp only [rankLE, reconcileRow_scoreOf, reconcileRow_name]

/-! ### The reconciled table, filtered back to the ranked rows -/

theorem reconcile_filter (season : Int) (db : List PlayerRow) (P : PlayerRow → Bool)
    (hP : ∀ r, P (reconcileRow season db r) = P r) :
    (reconcile_player_ranks season db).filter P =
      (db.filter P).map (reconcileRow season db) := by
  rw [reconcile_player_ranks, List.filter_map]
  congr 1
  exact List.filter_congr (fun r _ => hP r)

theorem posRows_repr (season : Int) (db : List PlayerRow) (pos : String) :
    (reconcile_player_ranks season db).filter
        (fun r => decide (r.season = season) && posScore r && decide (r.position = pos)) =
      ((eligible season db).filter (fun q => decide (q.position = pos))).map
        (reconcileRow season db) := by
  rw [reconcile_filter season db _ (fun r => by
    simp only [reconcileRow_season, reconcileRow_posScore, reconcileRow_position])]
  congr 1
  rw [eligible, List.filter_filter]
  refine List.filter_congr (fun r _ => ?_)
  cases hs : decide (r.season = season) <;> cases hp : posScore r <;>
    cases hq : decide (r.position = pos) <;> rfl

theorem allRows_repr (season : Int) (db : List PlayerRow) :
    (reconcile_player_ranks season db).filter
        (fun r => decide (r.season = season) && posScore r) =
      (eligible season db).map (reconcileRow season db) := by
  rw [reconcile_filter season db _ (fun r => by
    simp only [reconcileRow_season, reconcileRow_posScore])]
  rfl

theorem nodup_ids_filter (l : List PlayerRow) (hid : (l.map PlayerRow.id).Nodup)
    (p : PlayerRow → Bool) : ((l.filter p).map PlayerRow.id).Nodup :=
  ((@List.filter_sublist _ p l).map PlayerRow.id).nodup hid

theorem mem_posPartition (season : Int) (db : List PlayerRow) (pos : String)
    (r : PlayerRow)
    (hr : r ∈ (eligible season db).filter (fun q => decide (q.position = pos))) :
    r.season = season ∧ posScore r = true ∧ r.position = pos := by
  obtain ⟨hel, hpos⟩ := List.mem_filter.mp hr
  obtain ⟨_, helig⟩ := List.mem_filter.mp hel
  simp only [Bool.and_eq_true, decide_eq_true_eq] at helig hpos
  exact ⟨helig.1, helig.2, hpos⟩

theorem posRank_val (season : Int) (db : List PlayerRow) (pos : String)
    (r : PlayerRow)
    (hr : r ∈ (eligible season db).filter (fun q => decide (q.position = pos))) :
    (reconcileRow season db r).position_rank =
      some (rankOfById r (sortRanked rankLE
        ((eligible season db).filter (fun q => decide (q.position = pos))))) := by
  obtain ⟨hs, hp, hpos⟩ := mem_posPartition season db pos r hr
  rw [reconcileRow, if_pos ⟨hs, hp⟩]
  show some (positionRankOf season db r) = _
  rw [positionRankOf, hpos]

theorem overallRank_val (season : Int) (db : List PlayerRow) (r : PlayerRow)
    (hr : r ∈ eligible season db) :
    (reconcileRow season db r).overall_rank =
      some (rankOfById r (sortRanked rankLE (eligible season db))) := by
  obtain ⟨_, helig⟩ := List.mem_filter.mp hr
  simp only [Bool.and_eq_true, decide_eq_true_eq] at helig
  rw [reconcileRow, if_pos ⟨helig.1, helig.2⟩]
  rfl

/-- Claim C1: After rank reconciliation for a season, the `position_rank`
values of the season's positive-score players of any one position form a
dense sequence 1..N (a permutation of `[1, ..., N]` with `N` the number of
such players), ordered by fantasy score descending with ties broken by name
ascending; `overall_rank` is likewise dense over all positive-score players
of the season under the same ordering.  (Ids are assumed distinct, as
`players.id` is the table's primary key.) -/
theorem claim_c1_rank_density (season : Int) (db : List PlayerRow)
    (hid : (db.map PlayerRow.id).Nodup) (pos : String) :
    (((reconcile_player_ranks season db).filter
        (fun r => decide (r.season = season) && posScore r && decide (r.position = pos))).map
        PlayerRow.position_rank).Perm
      ((List.range' 1 ((eligible season db).filter
          (fun q => decide (q.position = pos))).length).map some)
    ∧ (∀ p ∈ (reconcile_player_ranks season db).filter
          (fun r => decide (r.season = season) && posScore r && decide (r.position = pos)),
       ∀ q ∈ (reconcile_player_ranks season db).filter
          (fun r => decide (r.season = season) && posScore r && decide (r.position = pos)),
        scoreOf q < scoreOf p ∨ (scoreOf p = scoreOf q ∧ p.name < q.name) →
        ∃ i j : Nat, p.position_rank = some i ∧ q.position_rank = some j ∧ i < j)
    ∧ (((reconcile_player_ranks season db).filter
        (fun r => decide (r.season = season) && posScore r)).map
        PlayerRow.overall_rank).Perm
      ((List.range' 1 (eligible season db).length).map some)
    ∧ (∀ p ∈ (reconcile_player_ranks season db).filter
          (fun r => decide (r.season = season) && posScore r),
       ∀ q ∈ (reconcile_player_ranks season db).filter
          (fun r => decide (r.season = season) && posScore r),
        scoreOf q < scoreOf p ∨ (scoreOf p = scoreOf q ∧ p.name < q.name) →
        ∃ i j : Nat, p.overall_rank = some i ∧ q.overall_rank = some j ∧ i < j) := by
  have hndE : ((eligible season db).map PlayerRow.id).Nodup :=
    nodup_ids_filter db hid _
  have hndEpos : (((eligible season db).filter
      (fun q => decide (q.position = pos))).map PlayerRow.id).Nodup :=
    nodup_ids_filter _ hndE _
  refine ⟨?_, ?_, ?_, ?_⟩
  · rw [posRows_repr, List.map_map]
    have hm : ((eligible season db).filter (fun q => decide (q.position = pos))).map
        (PlayerRow.position_rank ∘ reconcileRow season db) =
        (((eligible season db).filter (fun q => decide (q.position = pos))).map
          (fun r => rankOfById r (sortRanked rankLE
            ((eligible season db).filter (fun q => decide (q.position = pos)))))).map some := by
      rw [List.map_map]
      exact List.map_congr_left (fun r hr => posRank_val season db pos r hr)
    rw [hm]
    exact (rank_perm _ hndEpos).map some
  · intro p hp q hq hlt
    rw [posRows_repr] at hp hq
    obtain ⟨rp, hrp, rfl⟩ := List.mem_map.mp hp
    obtain ⟨rq, hrq, rfl⟩ := List.mem_map.mp hq
    rw [reconcileRow_scoreOf, reconcileRow_scoreOf, reconcileRow_name,
      reconcileRow_name] at hlt
    refine ⟨_, _, posRank_val season db pos rp hrp, posRank_val season db pos rq hrq, ?_⟩
    exact rank_strict _ hndEpos rp rq hrp hrq hlt
  · rw [allRows_repr, List.map_map]
    have hm : (eligible season db).map
        (PlayerRow.overall_rank ∘ reconcileRow season db) =
        ((eligible season db).map
          (fun r => rankOfById r (sortRanked rankLE (eligible season db)))).map some := by
      rw [List.map_map]
      exact List.map_congr_left (fun r hr => overallRank_val season db r hr)
    rw [hm]
    exact (rank_perm _ hndE).map some
  · intro p hp q hq hlt
    rw [allRows_repr] at hp hq
    obtain ⟨rp, hrp, rfl⟩ := List.mem_map.mp hp
    obtain ⟨rq, hrq, rfl⟩ := List.mem_map.mp hq
    rw [reconcileRow_scoreOf, reconcileRow_scoreOf, reconcileRow_name,
      reconcileRow_name] at hlt
    refine ⟨_, _, overallRank_val season db rp hrp, overallRank_val season db rq hrq, ?_⟩
    exact rank_strict _ hndE rp rq hrp hrq hlt

/-- Witness for C1 at a concrete table and position. -/
theorem claim_c1_rank_density_witness :
    (c1db.map PlayerRow.id).Nodup ∧
    ((((reconcile_player_ranks 2024 c1db).filter
        (fun r => decide (r.season = 2024) && posScore r && decide (r.position = "QB"))).map
        PlayerRow.position_rank).Perm
      ((List.range' 1 ((eligible 2024 c1db).filter
          (fun q => decide (q.position = "QB"))).length).map some)
    ∧ (∀ p ∈ (reconcile_player_ranks 2024 c1db).filter
          (fun r => decide (r.season = 2024) && posScore r && decide (r.position = "QB")),
       ∀ q ∈ (reconcile_player_ranks 2024 c1db).filter
          (fun r => decide (r.season = 2024) && posScore r && decide (r.position = "QB")),
        scoreOf q < scoreOf p ∨ (scoreOf p = scoreOf q ∧ p.name < q.name) →
        ∃ i j : Nat, p.position_rank = some i ∧ q.position_rank = some j ∧ i < j)
    ∧ (((reconcile_player_ranks 2024 c1db).filter
        (fun r => decide (r.season = 2024) && posScore r)).map
        PlayerRow.overall_rank).Perm
      ((List.range' 1 (eligible 2024 c1db).length).map some)
    ∧ (∀ p ∈ (reconcile_player_ranks 2024 c1db).filter
          (fun r => decide (r.season = 2024) && posScore r),
       ∀ q ∈ (reconcile_player_ranks 2024 c1db).filter
          (fun r => decide (r.season = 2024) && posScore r),
        scoreOf q < scoreOf p ∨ (scoreOf p = scoreOf q ∧ p.name < q.name) →
        ∃ i j : Nat, p.overall_rank = some i ∧ q.overall_rank = some j ∧ i < j)) :=
  ⟨by decide, claim_c1_rank_density 2024 c1db (by decide) "QB"⟩

/-! ### Idempotence of reconciliation -/

theorem eligible_reconcile (season : Int) (db : List PlayerRow) :
    eligible season (reconcile_player_ranks season db) =
      (eligible season db).map (reconcileRow season db) :=
  reconcile_filter season db _
    (fun r => by simp only [reconcileRow_season, reconcileRow_posScore])

theorem partition_reconcile (season : Int) (db : List PlayerRow) (pos : String) :
    (eligible season (reconcile_player_ranks season db)).filter
        (fun q => decide (q.position = pos)) =
      ((eligible season db).filter (fun q => decide (q.position = pos))).map
        (reconcileRow season db) := by
  rw [eligible_reconcile, List.filter_map]
  congr 1
  exact List.filter_congr (fun r _ => by simp [reconcileRow_position])

theorem rankOfById_map (s : Int) (db : List PlayerRow) (r : PlayerRow)
    (l : List PlayerRow) :
    rankOfById (reconcileRow s db r) (l.map (reconcileRow s db)) = rankOfById r l := by
  have hfun : (fun a : PlayerRow =>
      decide ((reconcileRow s db a).id = (reconcileRow s db r).id)) =
      (fun a : PlayerRow => decide (a.id = r.id)) := by
    funext a
    rw [reconcileRow_id, reconcileRow_id]
  rw [rankOfById, rankOfById, findIdx_map_eq]
  rw [show (fun a : PlayerRow =>
      decide ((reconcileRow s db a).id = (reconcileRow s db r).id)) =
      (fun a : PlayerRow => decide (a.id = r.id)) from hfun]

theorem positionRankOf_reconcile (season : Int) (db : List PlayerRow) (r : PlayerRow) :
    positionRankOf season (reconcile_player_ranks season db)
        (reconcileRow season db r) = positionRankOf season db r := by
  rw [positionRankOf, positionRankOf, reconcileRow_position, partition_reconcile,
    sortRanked_map rankLE rankLE (reconcileRow season db) (reconcileRow_rankLE season db),
    rankOfById_map]

theorem overallRankOf_reconcile (season : Int) (db : List PlayerRow) (r : PlayerRow) :
    overallRankOf season (reconcile_player_ranks season db)
        (reconcileRow season db r) = overallRankOf season db r := by
  rw [overallRankOf, overallRankOf, eligible_reconcile,
    sortRanked_map rankLE rankLE (reconcileRow season db) (reconcileRow_rankLE season db),
    rankOfById_map]

theorem reconcileRow_reconcile (season : Int) (db : List PlayerRow) (r : PlayerRow) :
    reconcileRow season (reconcile_player_ranks season db)
        (reconcileRow season db r) = reconcileRow season db r := by
  by_cases hc : r.season = season ∧ posScore r = true
  · have hc' : (reconcileRow season db r).season = season ∧
        posScore (reconcileRow season db r) = true := by
      rw [reconcileRow_season, reconcileRow_posScore]
      exact hc
    conv_lhs => rw [reconcileRow]
    rw [if_pos hc', positionRankOf_reconcile, overallRankOf_reconcile]
    conv_rhs => rw [reconcileRow]
    rw [if_pos hc]
    conv_lhs => rw [reconcileRow, if_pos hc]
  · have hc' : ¬((reconcileRow season db r).season = season ∧
        posScore (reconcileRow season db r) = true) := by
      rw [reconcileRow_season, reconcileRow_posScore]
      exact hc
    conv_lhs => rw [reconcileRow]
    rw [if_neg hc']

/-- Claim C4: Rank reconciliation is idempotent: for every season and every
table state, running it twice with unchanged fantasy scores leaves exactly
the table produced by running it once (in particular the same
`position_rank` and `overall_rank` for every player). -/
theorem claim_c4_reconcile_idempotent (season : Int) (db : List PlayerRow) :
    reconcile_player_ranks season (reconcile_player_ranks season db) =
      reconcile_player_ranks season db := by
  conv_lhs => rw [reconcile_player_ranks]
  conv_lhs => rw [show reconcile_player_ranks season db = db.map (reconcileRow season db) from rfl]
  rw [List.map_map]
  exact List.map_congr_left (fun r _ => reconcileRow_reconcile season db r)

/-- Witness for C4 at a concrete table. -/
theorem claim_c4_reconcile_idempotent_witness :
    reconcile_player_ranks 2024 (reconcile_player_ranks 2024 c1db) =
      reconcile_player_ranks 2024 c1db :=
  claim_c4_reconcile_idempotent 2024 c1db

/-! ### Zero/null-score rows under reconciliation -/

theorem reconcileRow_not_pos (season : Int) (db : List PlayerRow) (r : PlayerRow)
    (hz : r.fantasy_score = none ∨ r.fantasy_score = some 0) :
    reconcileRow season db r = r := by
  have hp : posScore r = false := by
    rcases hz with hz | hz <;> simp [posScore, hz]
  have hnc : ¬(r.season = season ∧ posScore r = true) := by
    rintro ⟨-, hpos⟩
    rw [hp] at hpos
    exact Bool.noConfusion hpos
  rw [reconcileRow, if_neg hnc]

/-- Claim C3 is false as stated: a season-2023 row with `fantasy_score = 0`
but stale non-null ranks still has non-null ranks after reconciliation —
the `UPDATE`s' `WHERE` clauses never touch zero/null-score rows, so stale
ranks are not nulled out. -/
theorem claim_c3_counterexample :
    ¬ (∀ r ∈ reconcile_player_ranks 2023 [staleRow],
        r.season = 2023 → (r.fantasy_score = none ∨ r.fantasy_score = some 0) →
        r.position_rank = none ∧ r.overall_rank = none) := by
  decide

/-- Claim C3, amended: Reconciliation leaves every row whose
`fantasy_score` is null or zero entirely unchanged; in particular such a
row's rank columns are null after reconciliation iff they were null
before (they are not actively nulled out). -/
theorem claim_c3_zero_score_rows_unchanged (season : Int) (db : List PlayerRow)
    (i : Nat) (h : i < db.length)
    (hz : (db.get ⟨i, h⟩).fantasy_score = none ∨
      (db.get ⟨i, h⟩).fantasy_score = some 0) :
    (reconcile_player_ranks season db)[i]? = db[i]? := by
  rw [reconcile_player_ranks, List.getElem?_map, List.getElem?_eq_getElem h]
  have hg : db[i] = db.get ⟨i, h⟩ := rfl
  rw [Option.map, hg, reconcileRow_not_pos season db _ hz]

/-- Witness for the amended C3 at the stale-rank row. -/
theorem claim_c3_zero_score_rows_unchanged_witness :
    0 < [staleRow].length ∧
    (([staleRow].get ⟨0, by decide⟩).fantasy_score = none ∨
      ([staleRow].get ⟨0, by decide⟩).fantasy_score = some 0) ∧
    (reconcile_player_ranks 2023 [staleRow])[0]? = [staleRow][0]? :=
  ⟨by decide, by decide,
    claim_c3_zero_score_rows_unchanged 2023 [staleRow] 0 (by decide) (by decide)⟩

/-! ### Error flow of `load_rosters` / `_reconcile_player_ranks` (C2) -/

/-- Claim C2 is false as stated: at a concrete input where the
rank-reconciliation step fails (the fault oracle is set), the step itself
yields a typed `IngestionError`, yet `load_rosters` returns normally —
its blanket `except Exception: logger.error(...)` swallows the error, so
nothing propagates to the caller. -/
theorem claim_c2_counterexample :
    (reconcile_player_ranks_run true 2023 (processRosterTeams [] 2023 [] [])).isOk = false ∧
    ∀ e : IngestionError, load_rosters_run [] true 2023 [] [] ≠ Except.error e := by
  constructor
  · rfl
  · intro e h
    have hok : load_rosters_run [] true 2023 [] [] = Except.ok [] := rfl
    rw [hok] at h
    exact Except.noConfusion h

/-- Claim C2, amended: On an unexpected failure `_reconcile_player_ranks`
does raise a typed `IngestionError`, but `load_rosters` catches every
exception and only logs it, so for every season, payload and starting
state the roster-loading step returns normally (with the per-entry
updates and without the rank updates) — the failure never reaches
`load_rosters`' caller. -/
theorem claim_c2_reconcile_error_swallowed (fs : List (String × ProjectionDoc))
    (season : Int) (teams : List (List RosterEntryData)) (db : List PlayerRow) :
    (∃ e : IngestionError, reconcile_player_ranks_run true season
        (processRosterTeams fs season teams db) = Except.error e) ∧
    load_rosters_run fs true season teams db =
      Except.ok (processRosterTeams fs season teams db) :=
  ⟨⟨_, rfl⟩, rfl⟩

/-! ### Draft-pick loading skips unresolvable picks (C5) -/

theorem load_draft_picks_foldl (season : Int) (pmap tmap : List (Int × Nat))
    (picks : List DraftPickData) (acc : List DraftPickRow × List String) :
    (picks.foldl (draftPickStep season pmap tmap) acc).1 =
      acc.1 ++ picks.filterMap (resolvePick season pmap tmap)
    ∧ (picks.foldl (draftPickStep season pmap tmap) acc).2.length =
      acc.2.length + (picks.filter (fun p => !(pickResolves pmap tmap p))).length := by
  induction picks generalizing acc with
  | nil => simp
  | cons p picks ih =>
    rw [List.foldl_cons]
    rcases h1 : lookupId pmap p.playerId with _ | a
    · have hstep : draftPickStep season pmap tmap acc p =
          (acc.1, acc.2 ++ ["Player ID " ++ toString p.playerId ++
            " not found in players table, skipping pick " ++ toString p.id]) := by
        rw [draftPickStep, h1]
      rw [hstep]
      obtain ⟨ihr, ihw⟩ := ih (acc.1, acc.2 ++ ["Player ID " ++ toString p.playerId ++
        " not found in players table, skipping pick " ++ toString p.id])
      have hres : resolvePick season pmap tmap p = none := by rw [resolvePick, h1]
      have hbad : (!(pickResolves pmap tmap p)) = true := by simp [pickResolves, h1]
      refine ⟨?_, ?_⟩
      · simp [ihr, List.filterMap_cons, hres]
      · simp [ihw, List.filter_cons, hbad] <;> omega
    · rcases h2 : lookupId tmap p.teamId with _ | b
      · have hstep : draftPickStep season pmap tmap acc p =
            (acc.1, acc.2 ++ ["Fantasy team ID " ++ toString p.teamId ++
              " not found in fantasy_teams table for season " ++ toString season ++
              ", skipping pick " ++ toString p.id]) := by
          rw [draftPickStep, h1, h2]
        rw [hstep]
        obtain ⟨ihr, ihw⟩ := ih (acc.1, acc.2 ++ ["Fantasy team ID " ++ toString p.teamId ++
          " not found in fantasy_teams table for season " ++ toString season ++
          ", skipping pick " ++ toString p.id])
        have hres : resolvePick season pmap tmap p = none := by rw [resolvePick, h1, h2]
        have hbad : (!(pickResolves pmap tmap p)) = true := by simp [pickResolves, h1, h2]
        refine ⟨?_, ?_⟩
        · simp [ihr, List.filterMap_cons, hres]
        · simp [ihw, List.filter_cons, hbad] <;> omega
      · have hstep : draftPickStep season pmap tmap acc p =
            (acc.1 ++ [mkDraftPickRow season a b p], acc.2) := by
          rw [draftPickStep, h1, h2]
        rw [hstep]
        obtain ⟨ihr, ihw⟩ := ih (acc.1 ++ [mkDraftPickRow season a b p], acc.2)
        have hres : resolvePick season pmap tmap p =
            some (mkDraftPickRow season a b p) := by rw [resolvePick, h1, h2]
        have hgood : (!(pickResolves pmap tmap p)) = false := by
          simp [pickResolves, h1, h2]
        refine ⟨?_, ?_⟩
        · simp [ihr, List.filterMap_cons, hres]
        · simp [ihw, List.filter_cons, hgood]

/-- Claim C5: Draft-pick loading never aborts on an unresolvable external
id: the rows created are exactly the translations of the picks whose two
ids both resolve (so no row is created for an unresolvable pick, and every
resolvable sibling is still persisted, whatever else the payload holds),
and one warning line is logged per skipped pick. -/
theorem claim_c5_draft_pick_skip (picks : List DraftPickData) (season : Int)
    (pmap tmap : List (Int × Nat)) :
    (load_draft_picks picks season pmap tmap).1 =
      picks.filterMap (resolvePick season pmap tmap)
    ∧ (∀ p : DraftPickData, pickResolves pmap tmap p = false →
        resolvePick season pmap tmap p = none)
    ∧ (∀ p : DraftPickData, pickResolves pmap tmap p = true →
        ∃ a b : Nat, lookupId pmap p.playerId = some a ∧
          lookupId tmap p.teamId = some b ∧
          resolvePick season pmap tmap p = some (mkDraftPickRow season a b p))
    ∧ (load_draft_picks picks season pmap tmap).2.length =
      (picks.filter (fun p => !(pickResolves pmap tmap p))).length := by
  obtain ⟨hr, hw⟩ := load_draft_picks_foldl season pmap tmap picks ([], [])
  refine ⟨by simpa using hr, ?_, ?_, by simpa using hw⟩
  · intro p hp
    rcases h1 : lookupId pmap p.playerId with _ | a
    · rw [resolvePick, h1]
    · rcases h2 : lookupId tmap p.teamId with _ | b
      · rw [resolvePick, h1, h2]
      · exfalso
        rw [pickResolves, h1, h2] at hp
        exact Bool.noConfusion hp
  · intro p hp
    rcases h1 : lookupId pmap p.playerId with _ | a
    · rw [pickResolves, h1] at hp
      exact Bool.noConfusion hp
    · rcases h2 : lookupId tmap p.teamId with _ | b
      · rw [pickResolves, h1, h2] at hp
        exact Bool.noConfusion hp
      · exact ⟨a, b, rfl, rfl, by rw [resolvePick, h1, h2]⟩

/-- Witness for the amended C2 at a concrete input. -/
theorem claim_c2_reconcile_error_swallowed_witness :
    load_rosters_run [] true 2023 [] [] =
      Except.ok (processRosterTeams [] 2023 [] []) :=
  (claim_c2_reconcile_error_swallowed [] 2023 [] []).2

/-- Witness for C5 at a concrete payload with one bad and one good pick. -/
theorem claim_c5_draft_pick_skip_witness :
    (load_draft_picks c5picks 2017 c5pmap c5tmap).1 =
      c5picks.filterMap (resolvePick 2017 c5pmap c5tmap) :=
  (claim_c5_draft_pick_skip c5picks 2017 c5pmap c5tmap).1

/-! ### Projected ranks (C6) -/

/-- Claim C6 is false as stated: with the per-position document present but
containing no entry for the player's name, the pass is not a no-op — it
overwrites the player's projected rank columns with `0`. -/
theorem claim_c6_counterexample :
    (c6fs.lookup (projectionDocPath 2024
        (determine_position c6entry.eligibleSlots))).isSome = true
    ∧ c6doc.rankings.find? (fun it => it.name = c6entry.fullName) = none
    ∧ load_projected_ranks c6fs c6entry 2024 c6db ≠ c6db
    ∧ (load_projected_ranks c6fs c6entry 2024 c6db).map
        PlayerRow.projected_position_rank = [some 0]
    ∧ c6db.map PlayerRow.projected_position_rank = [none] := by
  decide

/-- Claim C6, amended: For the designated historical season's pass: when the
per-position document is absent the operation is a silent no-op; but when
the document exists and contains no entry matching the player's display
name, the player's `projected_position_rank` and `projected_overall_rank`
are overwritten with `0` (the loop's defaults) — not left unchanged.  No
exception is raised in either case. -/
theorem claim_c6_projected_ranks (fs : List (String × ProjectionDoc))
    (e : RosterEntryData) (season : Int) (db : List PlayerRow) (pid : Int)
    (doc : ProjectionDoc)
    (h1 : e.playerId = some pid) (h2 : ¬(pid = 0))
    (h3 : valid_positions.contains (determine_position e.eligibleSlots) = true)
    (h4 : fs.lookup (projectionDocPath season
        (determine_position e.eligibleSlots)) = some doc)
    (h5 : doc.rankings.find? (fun it => it.name = e.fullName) = none) :
    load_projected_ranks fs e season db =
      db.map (fun r => if r.season = season ∧ r.espn_player_id = pid then
        { r with projected_position_rank := some 0,
                 projected_overall_rank := some 0 }
      else r)
    ∧ ∀ fs2 : List (String × ProjectionDoc),
        fs2.lookup (projectionDocPath season
          (determine_position e.eligibleSlots)) = none →
        load_projected_ranks fs2 e season db = db := by
  constructor
  · rw [load_projected_ranks, h1]
    simp only [if_neg h2, h3, if_true, h4, h5]
  · intro fs2 hnone
    rw [load_projected_ranks, h1]
    simp only [if_neg h2, h3, if_true, hnone]

/-- Witness for the amended C6. -/
theorem claim_c6_projected_ranks_witness :
    load_projected_ranks c6fs c6entry 2024 c6db =
      c6db.map (fun r => if r.season = 2024 ∧ r.espn_player_id = 5 then
        { r with projected_position_rank := some 0,
                 projected_overall_rank := some 0 }
      else r) :=
  (claim_c6_projected_ranks c6fs c6entry 2024 c6db 5 c6doc rfl (by decide)
    (by decide) (by decide) (by decide)).1

/-! ### Game dedup by (season, external game id) (C7) -/

theorem dictStep_foldl (gs : List GameRow) (acc : List GameRow)
    (hnd : (acc.map gameKey).Nodup) :
    ((gs.foldl dictStep acc).map gameKey).Nodup
    ∧ ∀ k, k ∈ (gs.foldl dictStep acc).map gameKey ↔
        (k ∈ acc.map gameKey ∨ k ∈ gs.map gameKey) := by
  induction gs generalizing acc with
  | nil => exact ⟨hnd, fun k => by simp⟩
  | cons g gs ih =>
    rw [List.foldl_cons]
    by_cases hmem : acc.any (fun h => gameKey h = gameKey g) = true
    · have hstep : dictStep acc g =
          acc.map (fun h => if gameKey h = gameKey g then g else h) := by
        rw [dictStep, if_pos hmem]
      have hkeys : (acc.map (fun h => if gameKey h = gameKey g then g else h)).map
          gameKey = acc.map gameKey := by
        rw [List.map_map]
        refine List.map_congr_left (fun h _ => ?_)
        by_cases hk : gameKey h = gameKey g
        · simp [hk]
        · simp [hk]
      have hg : gameKey g ∈ acc.map gameKey := by
        obtain ⟨x, hx, hxk⟩ := List.any_eq_true.mp hmem
        exact (decide_eq_true_eq.mp hxk) ▸ List.mem_map_of_mem gameKey hx
      obtain ⟨ihn, ihm⟩ := ih (acc.map (fun h => if gameKey h = gameKey g then g else h))
        (by rw [hkeys]; exact hnd)
      rw [hstep]
      refine ⟨ihn, fun k => ?_⟩
      rw [ihm k, hkeys, List.map_cons]
      constructor
      · rintro (h | h)
        · exact Or.inl h
        · exact Or.inr (List.mem_cons_of_mem _ h)
      · rintro (h | h)
        · exact Or.inl h
        · rcases List.mem_cons.mp h with rfl | h'
          · exact Or.inl hg
          · exact Or.inr h'
    · have hstep : dictStep acc g = acc ++ [g] := by rw [dictStep, if_neg hmem]
      have hgne : gameKey g ∉ acc.map gameKey := by
        intro hin
        obtain ⟨x, hx, hxk⟩ := List.mem_map.mp hin
        exact hmem (List.any_eq_true.mpr ⟨x, hx, by simp [hxk]⟩)
      have hnd' : ((acc ++ [g]).map gameKey).Nodup := by
        rw [List.map_append]
        have hone : ([g].map gameKey) = [gameKey g] := rfl
        rw [hone]
        refine List.Nodup.append hnd (List.nodup_singleton _) ?_
        intro a ha hb
        rw [List.mem_singleton] at hb
        exact hgne (hb ▸ ha)
      obtain ⟨ihn, ihm⟩ := ih (acc ++ [g]) hnd'
      rw [hstep]
      refine ⟨ihn, fun k => ?_⟩
      rw [ihm k]
      simp only [List.map_append, List.mem_append, List.map_cons, List.mem_cons,
        List.map_nil, List.mem_singleton, List.not_mem_nil, or_false]
      tauto

/-- Claim C7: `_load_games` persists exactly one Game row per distinct
(season, external game id) pair occurring in the payload: the inserted
collection's keys are duplicate-free, and a key appears among them iff it
appears somewhere in the flattened payload (in particular when the same
game id is listed under two or more team entries). -/
theorem claim_c7_game_dedup (pro_teams : List ProTeamData) (season : Int) :
    ((load_games pro_teams season).map gameKey).Nodup
    ∧ ∀ k : Int × Option Int, k ∈ (load_games pro_teams season).map gameKey ↔
        k ∈ (gamesFlat pro_teams season).map gameKey := by
  obtain ⟨hn, hm⟩ := dictStep_foldl (gamesFlat pro_teams season) [] (by simp)
  exact ⟨hn, fun k => by simpa using hm k⟩

/-- Witness for C7 at a payload sharing one game between two teams. -/
theorem claim_c7_game_dedup_witness :
    ((load_games c7teams 2015).map gameKey).Nodup :=
  (claim_c7_game_dedup c7teams 2015).1

/-! ### Position derivation and player dropping (C8) -/

theorem determine_position_first (el : List Int) (i : Nat) (h : i < el.length)
    (hbefore : ∀ s ∈ el.take i, position_map s = none)
    (pos : String) (hi : position_map (el.get ⟨i, h⟩) = some pos) :
    determine_position el = pos := by
  induction el generalizing i with
  | nil => exact absurd h (Nat.not_lt_zero i)
  | cons s rest ih =>
    cases i with
    | zero =>
      rw [determine_position]
      rw [show (s :: rest).get ⟨0, h⟩ = s from rfl] at hi
      rw [hi]
    | succ i =>
      have hs : position_map s = none :=
        hbefore s (by rw [List.take_succ_cons]; exact List.mem_cons_self s _)
      rw [determine_position, hs]
      refine ih i (Nat.lt_of_succ_lt_succ h) ?_ ?_
      · intro x hx
        exact hbefore x (by rw [List.take_succ_cons]; exact List.mem_cons_of_mem s hx)
      · exact hi

theorem determine_position_unknown (el : List Int)
    (hn : ∀ s ∈ el, position_map s = none) :
    determine_position el = "UNKNOWN" := by
  induction el with
  | nil => rfl
  | cons s rest ih =>
    rw [determine_position, hn s (List.mem_cons_self s rest)]
    exact ih (fun x hx => hn x (List.mem_cons_of_mem s hx))

theorem mkStoredPlayer_unknown (season : Int) (p : ExternalPlayer)
    (hu : determine_position p.eligibleSlots = "UNKNOWN") :
    mkStoredPlayer season p = none := by
  rcases hid : p.id with _ | pid
  · simp only [mkStoredPlayer, hid]
  · simp only [mkStoredPlayer, hid]
    by_cases h0 : pid = 0
    · rw [if_pos h0]
    · rw [if_neg h0, if_pos hu]

/-- Claim C8: The stored position is the one mapped from the first element of
the eligibility-slot list that occurs in the fixed table
{0: QB, 2: RB, 4: WR, 6: TE, 17: K, 16: DST}; a record with no slot in
the table yields no Player row at all, and concretely loading
`[{id 1, slots [0]}, {id 2, slots [99]}]` persists exactly the one QB row
for player 1. -/
theorem claim_c8_position_first_slot (el : List Int) (i : Nat) (h : i < el.length)
    (hbefore : ∀ s ∈ el.take i, position_map s = none)
    (pos : String) (hi : position_map (el.get ⟨i, h⟩) = some pos) :
    determine_position el = pos
    ∧ (∀ el2 : List Int, (∀ s ∈ el2, position_map s = none) →
        determine_position el2 = "UNKNOWN")
    ∧ (∀ season : Int, ∀ p : ExternalPlayer,
        determine_position p.eligibleSlots = "UNKNOWN" →
        mkStoredPlayer season p = none)
    ∧ load_players 2015
        [⟨some 1, none, [0], none, none⟩, ⟨some 2, none, [99], none, none⟩] =
        [⟨1, "Player 1", "QB", none, "ACTIVE", true, 2015⟩] :=
  ⟨determine_position_first el i h hbefore pos hi,
   determine_position_unknown, mkStoredPlayer_unknown, by decide⟩

/-- Witness for C8: slot 99 is unmapped, slot 2 maps to RB. -/
theorem claim_c8_position_first_slot_witness :
    (1 : Nat) < [(99 : Int), 2].length ∧
    determine_position [(99 : Int), 2] = "RB" :=
  ⟨by decide,
    (claim_c8_position_first_slot [(99 : Int), 2] 1 (by decide) (by decide) "RB"
      (by decide)).1⟩

/-! ### Store error wrapping (C9) -/

/-- Claim C9: For each of the store's read, single-row write and batched
write operations: a successful statement's result passes through, a failed
statement surfaces as the single wrapping `DatabaseError` carrying the
underlying driver error's message (wrapped by the connection scope, hence
the "Database operation failed" context), and no outcome is ever the
driver's native exception type. -/
theorem claim_c9_storage_error_wrapping {α : Type} (a : α) (e : SqliteError) :
    execute_query_run (Except.ok a) = Except.ok a
    ∧ (execute_query_run (Except.error e) : Except PyExc α) =
        Except.error (PyExc.storage ⟨"Database operation failed: " ++ e.msg⟩)
    ∧ execute_insert_run (Except.ok a) = Except.ok a
    ∧ (execute_insert_run (Except.error e) : Except PyExc α) =
        Except.error (PyExc.storage ⟨"Database operation failed: " ++ e.msg⟩)
    ∧ execute_many_run (Except.ok a) = Except.ok a
    ∧ (execute_many_run (Except.error e) : Except PyExc α) =
        Except.error (PyExc.storage ⟨"Database operation failed: " ++ e.msg⟩)
    ∧ ∀ stmt : Except SqliteError α,
        notNativeExc (execute_query_run stmt) = true
        ∧ notNativeExc (execute_insert_run stmt) = true
        ∧ notNativeExc (execute_many_run stmt) = true := by
  refine ⟨rfl, rfl, rfl, rfl, rfl, rfl, fun stmt => ?_⟩
  cases stmt <;> exact ⟨rfl, rfl, rfl⟩

/-- Witness for C9 at a concrete failing statement. -/
theorem claim_c9_storage_error_wrapping_witness :
    (execute_query_run (Except.error ⟨"disk I O error"⟩) : Except PyExc Nat) =
      Except.error (PyExc.storage ⟨"Database operation failed: disk I O error"⟩) :=
  (claim_c9_storage_error_wrapping (0 : Nat) ⟨"disk I O error"⟩).2.1

/-! ### Database statistics diagnostic (C10) -/

theorem get_table_count_run_eq (counts : String → Except SqliteError (List Nat))
    (t : String) :
    get_table_count_run counts t =
      match counts t with
      | .ok rows => .ok (rows.headD 0)
      | .error e => .error (.storage ⟨"Database operation failed: " ++ e.msg⟩) := by
  rcases h : counts t with rows | e
  · simp only [get_table_count_run, execute_query_run, get_connection_run,
      wrap_sqlite, h]
  · simp only [get_table_count_run, execute_query_run, get_connection_run,
      wrap_sqlite, h]

theorem statsStep_foldl (counts : String → Except SqliteError (List Nat))
    (ts : List String) (l : List (String × Nat)) :
    ts.foldl (statsStep counts) (.ok l) = .ok (l ++ ts.map (statValue counts)) := by
  induction ts generalizing l with
  | nil => simp
  | cons t ts ih =>
    rw [List.foldl_cons]
    have hstep : statsStep counts (.ok l) t = .ok (l ++ [statValue counts t]) := by
      rw [statsStep, get_table_count_run_eq]
      rcases h : counts t with rows | e
      · rw [statValue, h]
      · rw [statValue, h]
    rw [hstep, ih]
    simp [statValue]

/-- Claim C10: The database-statistics diagnostic never raises: for every
per-table statement outcome it returns (normally) an association list whose
keys are exactly `nfl_teams, games, fantasy_teams, players, draft_picks`
(`rosters` is absent), where a table whose count query fails inside the
store contributes the value `0`. -/
theorem claim_c10_database_stats (counts : String → Except SqliteError (List Nat)) :
    get_database_stats counts = .ok (db_tables.map (statValue counts))
    ∧ (db_tables.map (statValue counts)).map Prod.fst =
        ["nfl_teams", "games", "fantasy_teams", "players", "draft_picks"]
    ∧ "rosters" ∉ (db_tables.map (statValue counts)).map Prod.fst
    ∧ ∀ t ∈ db_tables, ∀ e : SqliteError, counts t = .error e →
        (t, 0) ∈ db_tables.map (statValue counts) := by
  refine ⟨?_, ?_, ?_, ?_⟩
  · rw [get_database_stats]
    exact (statsStep_foldl counts db_tables []).trans (by simp)
  · rfl
  · intro hmem
    rw [show (db_tables.map (statValue counts)).map Prod.fst =
      ["nfl_teams", "games", "fantasy_teams", "players", "draft_picks"] from rfl] at hmem
    simp at hmem
  · intro t ht e he
    have hv : statValue counts t = (t, 0) := by rw [statValue, he]
    exact hv ▸ List.mem_map_of_mem (statValue counts) ht

/-- Witness for C10 at an oracle where only the players query fails. -/
theorem claim_c10_database_stats_witness :
    get_database_stats c10counts = .ok (db_tables.map (statValue c10counts)) :=
  (claim_c10_database_stats c10counts).1

end FantasyAnalysis
